import Mathlib

/-!
# SleepIQ scraper: a shallow embedding of the extraction and session logic

This file embeds, in Lean, the algorithmic core of the `cybervoid/sleepiq`
repository: the metric/message extraction heuristics of
`src/scraper/sleepiq.ts` and `src/scraper/improved-biosignals.ts`, the
session store of `session.ts` (`SessionManager`), the post-submit
classification tail of `performLogin`, and the run-level orchestration
(`extractSleepDataForBothSleepersEnhanced`, `scrapeSleepMetrics`,
`getSleepData`).

Browser pages are modelled as DOM trees of element and text nodes; the
rendered text of a node is the concatenation of its text descendants.  The
JavaScript regular expressions used by the source are modelled by dedicated
matching functions, one per pattern, with ECMAScript `\s`, `\b` and `\w`
semantics spelled out.  Fallible browser operations are modelled with
`Except`; `try`/`catch`/`finally` control flow is made explicit.
-/

namespace SleepIQ

/-! ## ECMAScript character classes -/

/-- The characters matched by the ECMAScript regexp class `\s`
(whitespace and line terminators, including NBSP and the Unicode
space separators). -/
def isJsSpace (c : Char) : Bool :=
  c = ' ' || c = '\t' || c = '\n' || c = '\x0b' || c = '\x0c' || c = '\r' ||
  c = '\u00A0' || c = '\u1680' ||
  ('\u2000' ≤ c && c ≤ '\u200A') ||
  c = '\u2028' || c = '\u2029' || c = '\u202F' || c = '\u205F' ||
  c = '\u3000' || c = '\uFEFF'

/-- ECMAScript `\d`. -/
def isDigitCh (c : Char) : Bool := '0' ≤ c && c ≤ '9'

/-- ECMAScript `\w` (ASCII letters, digits and underscore), used by the
word-boundary assertion `\b`. -/
def isWordCh (c : Char) : Bool := c.isAlpha || isDigitCh c || c = '_'

/-! ## String helpers with JavaScript semantics -/

/-- Substring occurrence on character lists. -/
def occursIn (sub : List Char) : List Char → Bool
  | [] => sub.isEmpty
  | c :: cs => sub.isPrefixOf (c :: cs) || occursIn sub cs

/-- `String.prototype.includes`: substring containment. -/
def jsIncludes (s sub : String) : Bool := occursIn sub.toList s.toList

/-- `String.prototype.trim` on a character list (strips `\s` from both ends). -/
def trimChars (l : List Char) : List Char :=
  ((l.dropWhile isJsSpace).reverse.dropWhile isJsSpace).reverse

/-- `String.prototype.trim`. -/
def jsTrim (s : String) : String := (trimChars s.toList).asString

/-- `String.prototype.endsWith` for a single character. -/
def endsWithCh (s : String) (c : Char) : Bool :=
  match s.toList.getLast? with
  | some d => d = c
  | none => false

/-- `String.prototype.startsWith` (case-sensitive). -/
def jsStarts (s p : String) : Bool := p.toList.isPrefixOf s.toList

/-- ASCII lowercasing, as `String.prototype.toLowerCase` on the texts the
scraper handles. -/
def lowerChars (l : List Char) : List Char := l.map Char.toLower

/-- `String.prototype.toLowerCase`. -/
def jsLower (s : String) : String := (lowerChars s.toList).asString

/-- Case-insensitive prefix test (both sides ASCII-lowercased). -/
def ciLeading : List Char → List Char → Bool
  | [], _ => true
  | _ :: _, [] => false
  | a :: as, b :: bs => (a.toLower = b.toLower) && ciLeading as bs

/-- `String.prototype.replace` with a plain-string pattern replaces only the
first occurrence. -/
def replaceFirstChars (pat rep : List Char) : List Char → List Char
  | [] => []
  | c :: cs =>
    if pat.isPrefixOf (c :: cs) then rep ++ (c :: cs).drop pat.length
    else c :: replaceFirstChars pat rep cs

/-- `String.prototype.replace(pat, rep)` (first occurrence only). -/
def jsReplaceFirst (s pat rep : String) : String :=
  (replaceFirstChars pat.toList rep.toList s.toList).asString

/-- `url.split('#')[0]`: the prefix before the first `#`. -/
def beforeHash (s : String) : String := (s.toList.takeWhile (· ≠ '#')).asString

/-! ## Regexp models used by the dashboard metric extractor -/

/-- Attempt of `\b(\d{lo,hi})\b` anchored at the current position, given the
preceding character (`none` at the start of the input).  The digit run must
be maximal (a shorter prefix is followed by a digit, hence by a word
character, so backtracking inside the run never succeeds) and delimited by
word boundaries on both sides. -/
def digitRunHere (lo hi : Nat) (prev : Option Char) (l : List Char) : Option (List Char) :=
  let run := l.takeWhile isDigitCh
  let rest := l.drop run.length
  let boundaryBefore := match prev with
    | none => true
    | some c => !(isWordCh c)
  let boundaryAfter := match rest with
    | [] => true
    | c :: _ => !(isWordCh c)
  if boundaryBefore && lo ≤ run.length && run.length ≤ hi && boundaryAfter then
    some run
  else none

/-- Leftmost match of `\b(\d{lo,hi})\b`; returns the captured digits. -/
def scanDigitRun (lo hi : Nat) : Option Char → List Char → Option (List Char)
  | _, [] => none
  | prev, c :: cs =>
    match digitRunHere lo hi prev (c :: cs) with
    | some r => some r
    | none => scanDigitRun lo hi (some c) cs

/-- `text.match(/\b(\d{1,3})\b/)`: first 1-to-3-digit integer delimited by
word boundaries; the captured group as a string. -/
def matchNum13 (s : String) : Option String :=
  (scanDigitRun 1 3 none s.toList).map List.asString

/-- `text.match(/\b(\d{2})\b/)`: first two-digit integer delimited by word
boundaries. -/
def matchNum2 (s : String) : Option String :=
  (scanDigitRun 2 2 none s.toList).map List.asString

/-- `/^\s*(\d{2})\s*$/`: the whole string is a two-digit integer surrounded
by optional whitespace; returns the digits. -/
def matchExact2 (s : String) : Option String :=
  let core := trimChars s.toList
  if core.length = 2 && core.all isDigitCh then some core.asString else none

/-- `/^\d+$/.test`: the string is one or more digits and nothing else. -/
def isAllDigits (s : String) : Bool :=
  !s.toList.isEmpty && s.toList.all isDigitCh

/-- `/^\d/.test`: the string starts with a digit. -/
def startsWithDigit (s : String) : Bool :=
  match s.toList with
  | [] => false
  | c :: _ => isDigitCh c

/-- Attempt, at the current position, of a case-insensitive literal label
followed by `[\s\n]+(\d{1,3})` — the shape of the label-anchored dashboard
patterns `/30-day avg[\s\n]+(\d{1,3})/i` and `/All-time best[\s\n]+(\d{1,3})/i`.
`[\s\n]` coincides with `\s`, and `\d{1,3}` (with no trailing assertion)
greedily captures up to three digits of the following digit run. -/
def labelNumHere (label : List Char) (l : List Char) : Option (List Char) :=
  if ciLeading label l then
    let r := l.drop label.length
    let ws := r.takeWhile isJsSpace
    if 1 ≤ ws.length then
      let ds := ((r.drop ws.length).takeWhile isDigitCh).take 3
      if 1 ≤ ds.length then some ds else none
    else none
  else none

/-- Leftmost match of a label-anchored number pattern (see `labelNumHere`). -/
def findLabelNum (label : List Char) : List Char → Option (List Char)
  | [] => labelNumHere label []
  | c :: cs =>
    match labelNumHere label (c :: cs) with
    | some d => some d
    | none => findLabelNum label cs

/-- `bodyText.match(/30-day avg[\s\n]+(\d{1,3})/i)`, captured group. -/
def matchThirtyDay (s : String) : Option String :=
  (findLabelNum "30-day avg".toList s.toList).map List.asString

/-- `bodyText.match(/All-time best[\s\n]+(\d{1,3})/i)`, captured group. -/
def matchAllTimeBest (s : String) : Option String :=
  (findLabelNum "All-time best".toList s.toList).map List.asString

/-- Attempt, at the current position, of
`/SleepIQ[®]?\s*score[\s\n]+(\d{1,3})/i`. -/
def scoreNumHere (l : List Char) : Option (List Char) :=
  if ciLeading "SleepIQ".toList l then
    let r1 := l.drop 7
    let r2 := match r1 with
      | c :: cs => if c = '®' then cs else r1
      | [] => r1
    let r3 := r2.dropWhile isJsSpace
    if ciLeading "score".toList r3 then
      let r4 := r3.drop 5
      let ws := r4.takeWhile isJsSpace
      if 1 ≤ ws.length then
        let ds := ((r4.drop ws.length).takeWhile isDigitCh).take 3
        if 1 ≤ ds.length then some ds else none
      else none
    else none
  else none

/-- Leftmost match of `/SleepIQ[®]?\s*score[\s\n]+(\d{1,3})/i`, captured
group. -/
def findScoreNum : List Char → Option (List Char)
  | [] => scoreNumHere []
  | c :: cs =>
    match scoreNumHere (c :: cs) with
    | some d => some d
    | none => findScoreNum cs

/-- `bodyText.match(/SleepIQ[®]?\s*score[\s\n]+(\d{1,3})/i)`, captured
group. -/
def matchScore (s : String) : Option String :=
  (findScoreNum s.toList).map List.asString

/-- `/\d+h \d+m/.test`: a digit run followed by `h`, a space, a digit run
and `m` occurs somewhere in the string (the time-in-bed format, e.g.
`8h 54m`). -/
def hasTimePattern (s : String) : Bool :=
  let rec go : List Char → Bool
    | [] => false
    | c :: cs =>
      (let run := (c :: cs).takeWhile isDigitCh
       let r1 := (c :: cs).drop run.length
       if 1 ≤ run.length then
         match r1 with
         | 'h' :: ' ' :: r2 =>
           let run2 := r2.takeWhile isDigitCh
           (1 ≤ run2.length) &&
             (match r2.drop run2.length with
              | 'm' :: _ => true
              | _ => false)
         | _ => false
       else false) || go cs
  go s.toList

/-! ## DOM model

A page is a tree of element and text nodes.  `textContent` is the
concatenation of the text descendants (the model for both
`element.textContent` and, at the body, `document.body.innerText`);
`allElems` is `document.querySelectorAll('*')` in document (preorder)
order; `visible` models `offsetWidth > 0 && offsetHeight > 0` /
a non-empty `getBoundingClientRect`. -/

/-- Static data of a DOM element. -/
structure ElemInfo where
  tag : String
  className : String
  visible : Bool
  deriving Repr, DecidableEq, Inhabited

/-- A DOM node: an element with children, or a text node. -/
inductive DomNode where
  | elem (info : ElemInfo) (children : List DomNode)
  | text (s : String)
  deriving Repr, Inhabited

mutual

/-- `node.textContent`: concatenation of all text descendants. -/
def DomNode.textContent : DomNode → String
  | .text s => s
  | .elem _ cs => textContentList cs

/-- `textContent` over a child list. -/
def textContentList : List DomNode → String
  | [] => ""
  | n :: ns => n.textContent ++ textContentList ns

end

mutual

/-- The element nodes of a subtree in document (preorder) order, the root
element included: `querySelectorAll('*')`. -/
def DomNode.allElems : DomNode → List DomNode
  | .text _ => []
  | .elem i cs => .elem i cs :: allElemsList cs

/-- `allElems` over a child list. -/
def allElemsList : List DomNode → List DomNode
  | [] => []
  | n :: ns => n.allElems ++ allElemsList ns

end

/-- Whether a node is an element node. -/
def DomNode.isElem : DomNode → Bool
  | .elem _ _ => true
  | .text _ => false

/-- Visibility of an element (`offsetWidth > 0 && offsetHeight > 0`). -/
def DomNode.visible : DomNode → Bool
  | .elem i _ => i.visible
  | .text _ => false

/-- `element.className` (empty for text nodes). -/
def DomNode.className : DomNode → String
  | .elem i _ => i.className
  | .text _ => ""

/-- All child nodes. -/
def DomNode.childNodes : DomNode → List DomNode
  | .elem _ cs => cs
  | .text _ => []

/-- `element.children`: the element children only. -/
def DomNode.elemChildren (n : DomNode) : List DomNode :=
  n.childNodes.filter DomNode.isElem

/-! ## `improved-biosignals.ts`: active-tab message extraction -/

/-- The tab-header vocabulary exclusion of `extractActiveTabMessage`
(`src/scraper/improved-biosignals.ts`, lines 83-88): the candidate is
rejected when it contains `Heart Rate Variability`, `Breath Rate`,
`Trends`, `30-day`, `BPM`, or both `HRV` and `Breath Rate`. -/
def containsTabVocab (text : String) : Bool :=
  jsIncludes text "Heart Rate Variability" ||
  jsIncludes text "Breath Rate" ||
  jsIncludes text "Trends" ||
  jsIncludes text "30-day" ||
  jsIncludes text "BPM" ||
  (jsIncludes text "HRV" && jsIncludes text "Breath Rate")

/-- The element loop of `extractActiveTabMessage`: first visible element in
document order whose trimmed text is 31-499 characters long, ends in `.` or
`!`, contains no tab-header vocabulary and is not digits-only. -/
def tabMsgLoop : List DomNode → String
  | [] => ""
  | el :: rest =>
    let text := jsTrim el.textContent
    if !el.visible then tabMsgLoop rest
    else if (30 < text.length && text.length < 500) &&
            (endsWithCh text '.' || endsWithCh text '!') then
      if containsTabVocab text then tabMsgLoop rest
      else if isAllDigits (jsTrim text) then tabMsgLoop rest
      else text
    else tabMsgLoop rest

/-- `extractActiveTabMessage` (`src/scraper/improved-biosignals.ts`,
lines 60-103): scan `querySelectorAll('*')` of the whole document for the
first message-like element text. -/
def extractActiveTabMessage (root : DomNode) : String :=
  tabMsgLoop root.allElems

/-! ## `improved-biosignals.ts`: message cleanup -/

/-- `replace(/\s+/g, ' ')`: each maximal run of `\s` characters becomes a
single space.  The flag records whether the previous input character was
part of a whitespace run already emitted. -/
def collapseAux : Bool → List Char → List Char
  | _, [] => []
  | prevSp, c :: cs =>
    if isJsSpace c then
      if prevSp then collapseAux true cs
      else ' ' :: collapseAux true cs
    else c :: collapseAux false cs

/-- `replace(/\s+/g, ' ')`. -/
def collapseWs (l : List Char) : List Char := collapseAux false l

/-- The character class of the second cleanup pass,
`[\u00A0\u2000-\u200B\u2028\u2029]` (non-breaking and invisible space
variants; note that `\u200B`, the zero-width space, is in this class but
not in `\s`). -/
def isInvisibleCls (c : Char) : Bool :=
  c = '\u00A0' || ('\u2000' ≤ c && c ≤ '\u200B') || c = '\u2028' || c = '\u2029'

/-- The second cleanup pass: map every character of the invisible class to
a plain space. -/
def stripInvisible (l : List Char) : List Char :=
  l.map fun c => if isInvisibleCls c then ' ' else c

/-- The message cleanup of `extractBiosignalsMessagesImproved`
(`src/scraper/improved-biosignals.ts`, lines 218-221), in source order:
collapse `\s` runs, then map the invisible class to spaces, then trim. -/
def cleanMessage (s : String) : String :=
  (trimChars (stripInvisible (collapseWs s.toList))).asString

/-- Whether a character list contains two adjacent `\s` characters (the
whitespace-run property the spec asserts of extracted messages). -/
def hasDoubleWs : List Char → Bool
  | [] => false
  | a :: rest =>
    (match rest.head? with
     | some b => isJsSpace a && isJsSpace b
     | none => false) || hasDoubleWs rest

/-- The cleanup is applied only to truthy (non-empty) fields. -/
def cleanupField (s : String) : String := if s = "" then s else cleanMessage s

/-! ## `improved-biosignals.ts`: whole-page fallback patterns -/

/-- Attempt, at the current position, of `lit[^.]*\.`: the literal, the
greedy run of non-dot characters, then a dot; returns the whole match. -/
def litThenDotHere (lit : List Char) (l : List Char) : Option (List Char) :=
  if lit.isPrefixOf l then
    let r := l.drop lit.length
    let mid := r.takeWhile (· ≠ '.')
    match r.drop mid.length with
    | '.' :: _ => some (lit ++ mid ++ ['.'])
    | _ => none
  else none

/-- Leftmost match of `lit[^.]*\.`. -/
def findLitThenDot (lit : List Char) : List Char → Option (List Char)
  | [] => litThenDotHere lit []
  | c :: cs =>
    match litThenDotHere lit (c :: cs) with
    | some m => some m
    | none => findLitThenDot lit cs

/-- Split positions for a gap `.*lit`: indices `k` such that the first `k`
characters contain no line terminator and `lit` starts right after them.
ECMAScript greediness prefers the largest such `k`. -/
def gapSplits (lit : List Char) (l : List Char) : List Nat :=
  (List.range (l.length + 1)).filter fun k =>
    ((l.take k).all (· ≠ '\n')) && lit.isPrefixOf (l.drop k)

/-- Attempt, at the current position, of `/HRV.*high range[^.]*\./` (the
third HRV fallback pattern): a greedy same-line gap after `HRV`, then
`high range`, then non-dots, then a dot. -/
def hrvLooseHere (l : List Char) : Option (List Char) :=
  if "HRV".toList.isPrefixOf l then
    let r := l.drop 3
    ((gapSplits "high range".toList r).reverse.findSome? fun k =>
      let rest := r.drop (k + 10)
      let mid := rest.takeWhile (· ≠ '.')
      match rest.drop mid.length with
      | '.' :: _ =>
        some ("HRV".toList ++ r.take k ++ "high range".toList ++ mid ++ ['.'])
      | _ => none)
  else none

/-- Leftmost match of `/HRV.*high range[^.]*\./`. -/
def findHrvLoose : List Char → Option (List Char)
  | [] => hrvLooseHere []
  | c :: cs =>
    match hrvLooseHere (c :: cs) with
    | some m => some m
    | none => findHrvLoose cs

/-- The HRV whole-page fallback of `extractBiosignalsMessagesImproved`
(`src/scraper/improved-biosignals.ts`, lines 158-171), tried when the HRV
tab cannot be located: the three patterns in order, first match trimmed,
else the empty string. -/
def hrvFallback (bodyText : String) : String :=
  match findLitThenDot "Your heart rate variability was in the high range".toList
      bodyText.toList with
  | some m => (trimChars m).asString
  | none =>
    match findLitThenDot "Way to go, your HRV is in the high range".toList
        bodyText.toList with
    | some m => (trimChars m).asString
    | none =>
      match findHrvLoose bodyText.toList with
      | some m => (trimChars m).asString
      | none => ""

/-- Attempt, at the current position, of
`/breath rate.*around your average.*SleepIQ.*score[^.]*\./` (the second
breath-rate fallback pattern), with greedy same-line gaps resolved from the
longest. -/
def breathLooseHere (l : List Char) : Option (List Char) :=
  if "breath rate".toList.isPrefixOf l then
    let r := l.drop 11
    ((gapSplits "around your average".toList r).reverse.findSome? fun k1 =>
      let r1 := r.drop (k1 + 19)
      ((gapSplits "SleepIQ".toList r1).reverse.findSome? fun k2 =>
        let r2 := r1.drop (k2 + 7)
        ((gapSplits "score".toList r2).reverse.findSome? fun k3 =>
          let rest := r2.drop (k3 + 5)
          let mid := rest.takeWhile (· ≠ '.')
          match rest.drop mid.length with
          | '.' :: _ =>
            some ("breath rate".toList ++ r.take k1 ++ "around your average".toList ++
              r1.take k2 ++ "SleepIQ".toList ++ r2.take k3 ++ "score".toList ++
              mid ++ ['.'])
          | _ => none)))
  else none

/-- Leftmost match of the loose breath-rate pattern. -/
def findBreathLoose : List Char → Option (List Char)
  | [] => breathLooseHere []
  | c :: cs =>
    match breathLooseHere (c :: cs) with
    | some m => some m
    | none => findBreathLoose cs

/-- The breath-rate whole-page fallback of
`extractBiosignalsMessagesImproved` (`src/scraper/improved-biosignals.ts`,
lines 183-195): the two patterns in order, first match trimmed, else the
empty string. -/
def breathFallback (bodyText : String) : String :=
  match findLitThenDot "Don\x27t take it for granted! A breath rate around".toList
      bodyText.toList with
  | some m => (trimChars m).asString
  | none =>
    match findBreathLoose bodyText.toList with
    | some m => (trimChars m).asString
    | none => ""

/-! ## `improved-biosignals.ts`: the two extraction flows

Navigation is modelled by a driver: `nav url` is the page (URL and DOM)
the browser lands on after `page.goto(url)`, or an error when the
navigation rejects; `afterClick tab` is the DOM after the named tab's
click handler has run and the settle delay elapsed.  In-page
`page.evaluate` scripts are pure functions of the DOM. -/

/-- A browser page: its URL and rendered DOM (rooted at the body). -/
structure BioPage where
  url : String
  dom : DomNode

/-- Driver behaviour visible to the biosignals flow. -/
structure BioDriver where
  start : BioPage
  nav : String → Except String BioPage
  afterClick : String → DomNode

/-- The result record of `extractBiosignalsMessagesImproved`. -/
structure BioResults where
  heartRateMsg : String
  heartRateVariabilityMsg : String
  breathRateMsg : String
  deriving Repr, DecidableEq

/-- The in-page search of `clickTab` (`src/scraper/improved-biosignals.ts`,
lines 108-142): whether some visible element's trimmed text equals the tab
name exactly. -/
def findTabElem (root : DomNode) (name : String) : Bool :=
  root.allElems.any fun el => jsTrim el.textContent = name && el.visible

/-- `extractBiosignalsMessagesImproved` (`src/scraper/improved-biosignals.ts`,
lines 11-226).  Navigate to the biosignals details route (three URL cases);
abort with empty results if the navigation rejects (outer catch) or the
resulting URL is not a biosignals URL (early return).  Read the heart-rate
message from the default tab; for HRV and breath rate, click the tab when it
can be found and re-extract, otherwise fall back to whole-page pattern
matching.  Non-empty results are cleaned up. -/
def extractBiosignalsMessagesImproved (d : BioDriver) : BioResults :=
  let empty : BioResults := ⟨"", "", ""⟩
  let navres : Except String BioPage :=
    if jsIncludes d.start.url "#/pages/sleep/details/biosignals" then .ok d.start
    else if jsIncludes d.start.url "#/pages/sleep" then
      d.nav (jsReplaceFirst d.start.url "#/pages/sleep"
        "#/pages/sleep/details/biosignals")
    else
      d.nav (beforeHash d.start.url ++ "#/pages/sleep/details/biosignals")
  match navres with
  | .error _ => empty
  | .ok page =>
    if !(jsIncludes page.url "biosignals") then empty
    else
      let dom0 := page.dom
      let heartRate := extractActiveTabMessage dom0
      let hrvClicked := findTabElem dom0 "Heart Rate Variability"
      let dom1 := if hrvClicked then d.afterClick "Heart Rate Variability" else dom0
      let hrv :=
        if hrvClicked then extractActiveTabMessage dom1
        else hrvFallback dom0.textContent
      let breathClicked := findTabElem dom1 "Breath Rate"
      let dom2 := if breathClicked then d.afterClick "Breath Rate" else dom1
      let breath :=
        if breathClicked then extractActiveTabMessage dom2
        else breathFallback dom1.textContent
      ⟨cleanupField heartRate, cleanupField hrv, cleanupField breath⟩

/-! ## `improved-biosignals.ts`: sleep-session message extraction -/

/-- `element.children` text join of the sleep-session scan:
`Array.from(element.children).map(c => c.textContent?.trim()).join(' ')`. -/
def childrenTextJoin (el : DomNode) : String :=
  String.intercalate " " (el.elemChildren.map fun c => jsTrim c.textContent)

/-- The element loop of the sleep-session message scan
(`src/scraper/improved-biosignals.ts`, lines 273-319): first visible
element whose trimmed text is 20-200 characters, ends in `.` or `!`, is not
a metric label or timestamp, not a known tip, and whose element children's
text does not indicate a container. -/
def sessionMsgLoop : List DomNode → String
  | [] => ""
  | el :: rest =>
    let text := jsTrim el.textContent
    if !el.visible then sessionMsgLoop rest
    else if (20 ≤ text.length && text.length ≤ 200) &&
            (endsWithCh text '.' || endsWithCh text '!') then
      if jsIncludes text "30-day" || jsIncludes text "All-time" ||
         jsIncludes text "Details" || jsIncludes text "Time in bed" ||
         jsIncludes text "Sleep Number" || jsIncludes text "Exit at" ||
         hasTimePattern text || startsWithDigit text then
        sessionMsgLoop rest
      else if jsIncludes text "Did you know?" ||
              jsIncludes text "Why your sleep matters" then
        sessionMsgLoop rest
      else if jsIncludes (childrenTextJoin el) "Details" ||
              jsIncludes (childrenTextJoin el) "Restful" ||
              jsIncludes (childrenTextJoin el) "Restless" then
        sessionMsgLoop rest
      else text
    else sessionMsgLoop rest

/-- Driver behaviour visible to the sleep-session flow: the starting page,
the navigation outcome, and the outcome of the navigation back to the
original URL. -/
structure SessionFlowDriver where
  start : BioPage
  nav : String → Except String BioPage
  navBack : Except String Unit

/-- `extractSleepSessionMessageImproved` (`src/scraper/improved-biosignals.ts`,
lines 231-337).  Build the sleep-session details URL, navigate (a rejection
is caught and yields `""`), verify the landing URL, scan for the message,
navigate back (a rejection there is also caught, yielding `""`), and
return the trimmed message. -/
def extractSleepSessionMessageImproved (d : SessionFlowDriver) : String :=
  let originalUrl := d.start.url
  let target :=
    if jsIncludes originalUrl "#/pages/sleep" then
      jsReplaceFirst originalUrl "#/pages/sleep" "#/pages/sleep/details/sleep-session"
    else
      beforeHash originalUrl ++ "#/pages/sleep/details/sleep-session"
  match d.nav target with
  | .error _ => ""
  | .ok page =>
    if !(jsIncludes page.url "sleep-session") then ""
    else
      let message := sessionMsgLoop page.dom.allElems
      if originalUrl ≠ page.url then
        match d.navBack with
        | .error _ => ""
        | .ok _ => jsTrim message
      else jsTrim message

/-! ## `sleepiq.ts`: dashboard metric extraction (`extractSleepData`) -/

mutual

/-- Element nodes of a subtree in document order, each paired with its
parent element (`element.parentElement`). -/
def DomNode.elemsWithParent (parent : Option DomNode) : DomNode → List (DomNode × Option DomNode)
  | .text _ => []
  | .elem i cs => (.elem i cs, parent) :: elemsWithParentList (some (.elem i cs)) cs

/-- `elemsWithParent` over a child list. -/
def elemsWithParentList (parent : Option DomNode) : List DomNode → List (DomNode × Option DomNode)
  | [] => []
  | n :: ns => n.elemsWithParent parent ++ elemsWithParentList parent ns

end

/-- The numeric value of a digit string, as `parseInt` on a digits-only
input. -/
def digitsVal (l : List Char) : Nat :=
  l.foldl (fun a c => a * 10 + (c.toNat - 48)) 0

/-- `parseInt` on the digit strings captured by the metric patterns. -/
def strVal (s : String) : Nat := digitsVal s.toList

/-- Strategy 1 of the dashboard evaluate (`src/scraper/sleepiq.ts`,
lines 720-732): scan `querySelectorAll('[class*="score"], [class*="sleepiq"]')`
for a container mentioning `SleepIQ` or `score` with a two-digit match. -/
def strategyOneLoop : List DomNode → String
  | [] => ""
  | el :: rest =>
    let t := el.textContent
    if jsIncludes t "SleepIQ" || jsIncludes t "score" then
      match matchNum2 t with
      | some m => m
      | none => strategyOneLoop rest
    else strategyOneLoop rest

/-- Strategy 1 entry: the `[class*="score"], [class*="sleepiq"]` selector. -/
def strategyOneScore (root : DomNode) : String :=
  strategyOneLoop (root.allElems.filter fun el =>
    jsIncludes el.className "score" || jsIncludes el.className "sleepiq")

/-- Strategy 2, 30-day average, one element (`src/scraper/sleepiq.ts`,
lines 737-758): when the element text mentions `30-day` and `avg`, the
first `\b(\d{1,3})\b` match in its own text, else in its parent's text;
`none` (continue the walk) when the label is absent or no number is
found. -/
def thirtyAt (el : DomNode) (parent : Option DomNode) : Option String :=
  let t := el.textContent
  if jsIncludes t "30-day" && jsIncludes t "avg" then
    match matchNum13 t with
    | some m => some m
    | none =>
      match parent with
      | some p => matchNum13 p.textContent
      | none => none
  else none

/-- Strategy 2, 30-day average: first element of the document walk that
yields a number (the loop breaks on success, else continues). -/
def findThirtyStruct : List (DomNode × Option DomNode) → String
  | [] => ""
  | (el, parent) :: rest =>
    match thirtyAt el parent with
    | some m => m
    | none => findThirtyStruct rest

/-- Strategy 2, all-time best, one element (`src/scraper/sleepiq.ts`,
lines 761-780): same shape with the `All-time` / `best` labels. -/
def allTimeAt (el : DomNode) (parent : Option DomNode) : Option String :=
  let t := el.textContent
  if jsIncludes t "All-time" && jsIncludes t "best" then
    match matchNum13 t with
    | some m => some m
    | none =>
      match parent with
      | some p => matchNum13 p.textContent
      | none => none
  else none

/-- Strategy 2, all-time best: the document walk. -/
def findAllTimeStruct : List (DomNode × Option DomNode) → String
  | [] => ""
  | (el, parent) :: rest =>
    match allTimeAt el parent with
    | some m => m
    | none => findAllTimeStruct rest

/-- The sibling scan of strategy 2 for the score (`src/scraper/sleepiq.ts`,
lines 796-803): an element sibling whose text is exactly a two-digit
integer in [0, 100]. -/
def scoreSibling : List DomNode → Option String
  | [] => none
  | sib :: rest =>
    match matchExact2 sib.textContent with
    | some m => if 0 ≤ strVal m && strVal m ≤ 100 then some m else scoreSibling rest
    | none => scoreSibling rest

/-- Strategy 2 for the score, one element (`src/scraper/sleepiq.ts`,
lines 783-809): an element mentioning `SleepIQ` and `score`, or whose
trimmed text is exactly two digits; its first two-digit match bounded to
[0, 100]; failing that, a matching sibling under its parent; `none`
continues the walk. -/
def scoreAt (el : DomNode) (parent : Option DomNode) : Option String :=
  let t := el.textContent
  if (jsIncludes t "SleepIQ" && jsIncludes t "score") ||
      (matchExact2 (jsTrim t)).isSome then
    match matchNum2 t with
    | some m =>
      if 0 ≤ strVal m && strVal m ≤ 100 then some m
      else
        match parent with
        | some p => scoreSibling p.elemChildren
        | none => none
    | none =>
      match parent with
      | some p => scoreSibling p.elemChildren
      | none => none
  else none

/-- Strategy 2 for the score, run only when strategy 1 produced nothing:
the document walk. -/
def findScoreStruct : List (DomNode × Option DomNode) → String
  | [] => ""
  | (el, parent) :: rest =>
    match scoreAt el parent with
    | some m => m
    | none => findScoreStruct rest

/-- The three captured dashboard numbers. -/
structure DashboardNums where
  thirtyDayAvg : String
  sleepScore : String
  allTimeBest : String
  deriving Repr, DecidableEq

/-- The dashboard `page.evaluate` of `extractSleepData`
(`src/scraper/sleepiq.ts`, lines 707-841): strategy 1 (score containers by
class), strategy 2 (structural text walking), then strategy 3 — the
label-anchored body-text patterns, which overwrite the earlier results
whenever they match. -/
def dashboardEvaluate (root : DomNode) : DashboardNums :=
  let s1score := strategyOneScore root
  let pairs := root.elemsWithParent none
  let thirty2 := findThirtyStruct pairs
  let best2 := findAllTimeStruct pairs
  let score2 := if s1score = "" then findScoreStruct pairs else s1score
  let bodyText := root.textContent
  let thirty := (matchThirtyDay bodyText).getD thirty2
  let score := (matchScore bodyText).getD score2
  let best := (matchAllTimeBest bodyText).getD best2
  ⟨thirty, score, best⟩

/-- The `waitForFunction` readiness condition of `extractSleepData`
(`src/scraper/sleepiq.ts`, lines 695-702). -/
def dashboardReady (bodyText : String) : Bool :=
  jsIncludes bodyText "SleepIQ" &&
  (jsIncludes bodyText "30-day" || jsIncludes bodyText "All-time" ||
   jsIncludes bodyText "score")

/-- The per-sleeper record assembled by the scraper (`SleepMetrics` of
`shared/types.ts`, restricted to the seven contract fields; the legacy
`date` wall-clock field is not modelled, and the `raw` debugging blob is
modelled as an optional string). -/
structure SleepMetricsRec where
  thirtyAverage : String
  score : String
  allTimeBest : String
  message : String
  heartRateMsg : String
  heartRateVariabilityMsg : String
  breathRateMsg : String
  raw : Option String
  deriving Repr, DecidableEq

/-- The all-empty record every extraction starts from. -/
def emptyMetrics : SleepMetricsRec := ⟨"", "", "", "", "", "", "", none⟩

/-- `extractSleepData` (`src/scraper/sleepiq.ts`, lines 675-882): if the
dashboard readiness wait times out, the error is caught and the record
stays empty; otherwise the three evaluated numbers are copied in and the
page text is kept as the raw diagnostic. -/
def extractSleepData (root : DomNode) : SleepMetricsRec :=
  if dashboardReady root.textContent then
    let nums := dashboardEvaluate root
    { emptyMetrics with
      thirtyAverage := nums.thirtyDayAvg
      score := nums.sleepScore
      allTimeBest := nums.allTimeBest
      raw := some root.textContent }
  else emptyMetrics

/-! ## `session.ts`: SessionManager -/

/-- A stored session record (`SessionData` of `session.ts`).  The replayed
payload (cookies, storage entries, URL) is carried but opaque to the logic
modelled here; `timestamp` is `Date.now()` at save time, in milliseconds. -/
structure SessionData where
  cookies : List String
  localStorageEntries : List (String × String)
  sessionStorageEntries : List (String × String)
  url : String
  timestamp : Int
  deriving Repr, DecidableEq

/-- The state of the session file on disk. -/
inductive StoredFile where
  | absent
  | corrupt
  | valid (d : SessionData)
  deriving Repr, DecidableEq

/-- What `loadSession` left behind: its return value, the session file
afterwards, and whether the replay phase (navigation, cookie and storage
restore) was entered at all. -/
structure LoadOutcome where
  result : Bool
  store : StoredFile
  replayed : Bool
  deriving Repr, DecidableEq

/-- `const maxAge = 24 * 60 * 60 * 1000`. -/
def maxSessionAge : Int := 24 * 60 * 60 * 1000

/-- `SessionManager.loadSession` (`session.ts`, lines 81-152).  No file:
return false.  Unreadable/unparseable file: the exception is caught,
the file cleared, false returned.  A record whose age exceeds 24 hours:
cleared and refused without replaying.  Otherwise the record is replayed;
a replay failure is caught, the file cleared, false returned. -/
def loadSession (file : StoredFile) (now : Int) (replay : Except String Unit) : LoadOutcome :=
  match file with
  | .absent => ⟨false, .absent, false⟩
  | .corrupt => ⟨false, .absent, false⟩
  | .valid d =>
    if now - d.timestamp > maxSessionAge then
      ⟨false, .absent, false⟩
    else
      match replay with
      | .ok _ => ⟨true, .valid d, true⟩
      | .error _ => ⟨false, .absent, true⟩

/-- `SessionManager.isLoggedIn` (`session.ts`, lines 157-176): the page
inspection may fail (`inspect = .error`), in which case the catch returns
false; otherwise the page counts as logged in exactly when the URL contains
neither `login` nor `auth` and no email/password input exists. -/
def isLoggedIn (currentUrl : String) (inspect : Except String Bool) : Bool :=
  match inspect with
  | .error _ => false
  | .ok hasLoginForm =>
    !(jsIncludes currentUrl "login" || jsIncludes currentUrl "auth" || hasLoginForm)

/-! ## `sleepiq.ts`: the post-submit classification tail of `performLogin` -/

/-- The page snapshot taken after the submit wait (`loginPageInfo`). -/
structure LoginPageInfo where
  errorMessages : List String
  redElements : List String
  currentPath : String
  hasLoginForm : Bool

/-- The snapshot after the bounded auth-redirect polling
(`updatedPageInfo`). -/
structure AuthPollInfo where
  currentPath : String
  hasLoginForm : Bool

/-- The two-factor error text (`src/scraper/sleepiq.ts`, line 640). -/
def twoFactorErrorMsg : String :=
  "Login requires 2FA or verification code - this is not currently supported"

/-- The stuck-on-auth-page error text (`src/scraper/sleepiq.ts`, line 643). -/
def stuckOnAuthErrorMsg (path : String) : String :=
  "Login failed - stuck on auth page: " ++ path ++ ". Check debug screenshot."

/-- The generic login-failure message builder (`src/scraper/sleepiq.ts`,
lines 651-660). -/
def loginFailureMsg (info : LoginPageInfo) : String :=
  let m1 := "Login failed"
  let m2 := if info.errorMessages ≠ [] then
      m1 ++ " - Error messages: " ++ String.intercalate ", " info.errorMessages
    else m1
  let m3 := if info.redElements ≠ [] then
      m2 ++ " - Red text found: " ++ String.intercalate ", " info.redElements
    else m2
  if info.errorMessages = [] && info.redElements = [] then
    m3 ++ " - No visible error messages. Check credentials or possible 2FA requirement."
  else m3

/-- The classification tail of `performLogin` (`src/scraper/sleepiq.ts`,
lines 550-665).  On the intermediate auth route with a login form, poll;
if still stuck afterwards, inspect the first 500 characters of the page
text (lowercased) for verification vocabulary and raise the two-factor
error, else the stuck-on-auth error.  Off the auth route, a remaining
login form on a login path raises the generic failure. -/
def loginPostSubmit (info : LoginPageInfo) (updated : AuthPollInfo)
    (authBodyText : String) (authPath : String) : Except String Unit :=
  let isStillOnLogin := info.hasLoginForm &&
    (jsIncludes info.currentPath "/login" || jsIncludes info.currentPath "auth")
  if jsIncludes info.currentPath "auth/login" && info.hasLoginForm then
    let stillOnAuthLogin := updated.hasLoginForm &&
      jsIncludes updated.currentPath "auth/login"
    if stillOnAuthLogin then
      let bodyText := jsLower ((authBodyText.toList.take 500).asString)
      if jsIncludes bodyText "verification" || jsIncludes bodyText "2fa" ||
         jsIncludes bodyText "code" then
        .error twoFactorErrorMsg
      else
        .error (stuckOnAuthErrorMsg authPath)
    else .ok ()
  else if isStillOnLogin then
    .error (loginFailureMsg info)
  else .ok ()

/-! ## `sleepiq.ts` and `api/handler.ts`: run-level orchestration -/

/-- The two fixed sleeper identities. -/
inductive Sleeper where
  | rafa
  | miki
  deriving Repr, DecidableEq

/-- The per-run two-record result (`SleepDataBySleeper`). -/
structure SleepDataBySleeper where
  rafa : SleepMetricsRec
  miki : SleepMetricsRec
  deriving Repr, DecidableEq

/-- Driver behaviour visible to one `scrapeSleepMetrics` run: the outcome
of browser launch and page creation, of the session-restore/login phase,
of each sleeper's select-and-extract step (any exception thrown inside the
per-sleeper loop body), and of the two close calls in the `finally`
block. -/
structure RunBehavior where
  launch : Except String Unit
  login : Except String Unit
  perSleeper : Sleeper → Except String SleepMetricsRec
  pageClose : Except String Unit
  browserClose : Except String Unit

/-- `extractSleepDataForBothSleepersEnhanced` (`src/scraper/sleepiq.ts`,
lines 1972-2053): both records start fully initialised with empty strings;
each sleeper's step runs in its own try/catch, and an exception leaves that
sleeper's empty record annotated with the error instead of propagating. -/
def extractSleepDataForBothSleepersEnhanced
    (perSleeper : Sleeper → Except String SleepMetricsRec) : SleepDataBySleeper :=
  let one := fun s =>
    match perSleeper s with
    | .ok d => d
    | .error e => { emptyMetrics with raw := some e }
  ⟨one .rafa, one .miki⟩

/-- JavaScript `try`/`finally`: when the `finally` block completes
abruptly, its error replaces the outcome of the `try` block. -/
def finallyOverride (primary : Except String α) (cleanup : Except String Unit) :
    Except String α :=
  match cleanup with
  | .ok _ => primary
  | .error e => .error e

/-- The close calls issued by the `finally` block. -/
inductive CloseAction where
  | closePage
  | closeBrowser
  deriving Repr, DecidableEq

/-- `scrapeSleepMetrics` (`src/scraper/sleepiq.ts`, lines 21-143),
abstracted over driver behaviour.  The try block launches the browser,
restores the session or logs in, and extracts both sleepers; its error is
rethrown wrapped in `Failed to scrape SleepIQ data: ...`.  The finally
block closes the page, then the browser; the close calls are not wrapped
in their own try/catch, so a close error replaces the primary outcome, and
a page-close error skips the browser close.  The second component records
the close calls actually issued. -/
def scrapeSleepMetrics (b : RunBehavior) :
    Except String SleepDataBySleeper × List CloseAction :=
  match b.launch with
  | .error e => (.error ("Failed to scrape SleepIQ data: " ++ e), [])
  | .ok _ =>
    let primary : Except String SleepDataBySleeper :=
      match b.login with
      | .error e => .error ("Failed to scrape SleepIQ data: " ++ e)
      | .ok _ => .ok (extractSleepDataForBothSleepersEnhanced b.perSleeper)
    match b.pageClose with
    | .error e => (finallyOverride primary (.error e), [CloseAction.closePage])
    | .ok _ =>
      (finallyOverride primary b.browserClose,
       [CloseAction.closePage, CloseAction.closeBrowser])

/-- One output record of the API layer (`api/handler.ts`): exactly the
seven documented string fields. -/
structure SleepRecordOut where
  thirtyAverage : String
  score : String
  allTimeBest : String
  message : String
  heartRateMsg : String
  heartRateVariabilityMsg : String
  breathRateMsg : String
  deriving Repr, DecidableEq

/-- The two-profile output object. -/
structure TwoSleeperOut where
  rafa : SleepRecordOut
  miki : SleepRecordOut
  deriving Repr, DecidableEq

/-- The API response (`api/handler.ts`, `getSleepData`): either
`success: true` with the data, or `success: false` with one error
message — never both. -/
inductive ApiResult where
  | success (data : TwoSleeperOut)
  | failure (error : String)
  deriving Repr, DecidableEq

/-- The field-by-field projection `getSleepData` applies to each record. -/
def projectRecord (m : SleepMetricsRec) : SleepRecordOut :=
  ⟨m.thirtyAverage, m.score, m.allTimeBest, m.message, m.heartRateMsg,
   m.heartRateVariabilityMsg, m.breathRateMsg⟩

/-- `getSleepData` (`api/handler.ts`, lines 7-46): run the scraper inside
try/catch and produce either the projected two-record data or a single
error message. -/
def getSleepData (b : RunBehavior) : ApiResult :=
  match (scrapeSleepMetrics b).1 with
  | .ok d => .success ⟨projectRecord d.rafa, projectRecord d.miki⟩
  | .error e => .failure e

/-! ## Theorems -/

/-- C10: `SessionManager.isLoggedIn` always returns a boolean (the model is
a total function; every inspection error is caught) and it returns `true`
exactly when the inspection succeeded, reported no email/password input,
and the URL contains neither `login` nor `auth` as a substring — so any URL
merely containing `auth` is classified as not authenticated and forces a
fresh login. -/
theorem isLoggedIn_characterisation (url : String) (inspect : Except String Bool) :
    isLoggedIn url inspect = true ↔
      inspect = .ok false ∧ jsIncludes url "login" = false ∧
        jsIncludes url "auth" = false := by
  cases inspect with
  | error e => simp [isLoggedIn]
  | ok form => cases form <;> simp [isLoggedIn, not_or]

/-- Witness for `isLoggedIn_characterisation` at a URL containing `auth`. -/
theorem isLoggedIn_characterisation_witness :
    isLoggedIn "https://sleepiq.sleepnumber.com/#/oauth/callback" (.ok false) = false := by
  have h := isLoggedIn_characterisation
    "https://sleepiq.sleepnumber.com/#/oauth/callback" (.ok false)
  cases hval : isLoggedIn "https://sleepiq.sleepnumber.com/#/oauth/callback" (.ok false) with
  | false => rfl
  | true => exact absurd (h.mp hval).2.2 (by decide)

/-- C4: `SessionManager.loadSession` returns false without raising when no
record exists, when the file is unreadable or unparseable, or when the
replay fails; and a record more than 24 hours old is cleared and refused
without any replay being attempted. -/
theorem loadSession_spec (d : SessionData) (now : Int) (replay : Except String Unit) :
    (loadSession .absent now replay).result = false ∧
    (loadSession .corrupt now replay).result = false ∧
    (now - d.timestamp > maxSessionAge →
      loadSession (.valid d) now replay = ⟨false, .absent, false⟩) ∧
    (∀ e, replay = .error e → (loadSession (.valid d) now replay).result = false) := by
  refine ⟨rfl, rfl, ?_, ?_⟩
  · intro h
    simp [loadSession, h]
  · intro e he
    by_cases hexp : now - d.timestamp > maxSessionAge
    · simp [loadSession, hexp]
    · simp [loadSession, hexp, he]

/-- Witness for `loadSession_spec`: a record saved 25 hours ago, checked
now, with a replay that would fail. -/
theorem loadSession_spec_witness :
    (1000000000000 : Int) - 999910000000 > maxSessionAge ∧
    loadSession (.valid ⟨[], [], [], "https://sleepiq.sleepnumber.com/", 999910000000⟩)
        1000000000000 (.error "net") = ⟨false, .absent, false⟩ := by
  refine ⟨by decide, ?_⟩
  exact (loadSession_spec ⟨[], [], [], "https://sleepiq.sleepnumber.com/", 999910000000⟩
    1000000000000 (.error "net")).2.2.1 (by decide)

/-- C7: when the login machine remains on the intermediate auth route after
the bounded polling and the page text (first 500 characters, lowercased)
contains verification/one-time-code vocabulary, `performLogin` raises the
dedicated two-factor error; when the vocabulary is absent it raises the
stuck-on-auth error instead, and the two error messages are distinct. -/
theorem loginPostSubmit_twoFactor (info : LoginPageInfo) (updated : AuthPollInfo)
    (body path : String)
    (h1 : info.hasLoginForm = true)
    (h2 : jsIncludes info.currentPath "auth/login" = true)
    (h3 : updated.hasLoginForm = true)
    (h4 : jsIncludes updated.currentPath "auth/login" = true) :
    ((jsIncludes (jsLower ((body.toList.take 500).asString)) "verification" ||
      jsIncludes (jsLower ((body.toList.take 500).asString)) "2fa" ||
      jsIncludes (jsLower ((body.toList.take 500).asString)) "code") = true →
        loginPostSubmit info updated body path = .error twoFactorErrorMsg) ∧
    ((jsIncludes (jsLower ((body.toList.take 500).asString)) "verification" ||
      jsIncludes (jsLower ((body.toList.take 500).asString)) "2fa" ||
      jsIncludes (jsLower ((body.toList.take 500).asString)) "code") = false →
        loginPostSubmit info updated body path = .error (stuckOnAuthErrorMsg path)) ∧
    twoFactorErrorMsg ≠ stuckOnAuthErrorMsg path := by
  refine ⟨?_, ?_, ?_⟩
  · intro hv
    simp only [loginPostSubmit, h1, h2, h3, h4, hv]
    simp
  · intro hv
    simp only [loginPostSubmit, h1, h2, h3, h4, hv]
    simp
  · intro h
    have h12 := congrArg (fun s => s.data.take 12) h
    simp only [stuckOnAuthErrorMsg, String.data_append] at h12
    rw [List.append_assoc] at h12
    rw [List.take_append_of_le_length (by decide)] at h12
    exact absurd h12 (by decide)

/-- Witness for `loginPostSubmit_twoFactor`: a run stuck on the auth route
whose page text asks for a verification code. -/
theorem loginPostSubmit_twoFactor_witness :
    loginPostSubmit ⟨[], [], "/#/auth/login", true⟩ ⟨"/#/auth/login", true⟩
      "Enter the verification code we sent to your email" "/#/auth/login" =
      .error twoFactorErrorMsg := by
  exact (loginPostSubmit_twoFactor ⟨[], [], "/#/auth/login", true⟩ ⟨"/#/auth/login", true⟩
    "Enter the verification code we sent to your email" "/#/auth/login"
    rfl (by decide) rfl (by decide)).1 (by decide)

/-- C1: for every driver behaviour the API-level outcome is either a single
error or a fully-shaped two-record result (the sum type has no mixed or
half-filled constructor), and an extraction failure for a profile is caught and
converted into that profile's all-empty record rather than propagated. -/
theorem getSleepData_shape (b : RunBehavior) :
    ((∃ e, getSleepData b = .failure e) ∨ (∃ r, getSleepData b = .success r)) ∧
    (b.launch = .ok () → b.login = .ok () → b.pageClose = .ok () →
      b.browserClose = .ok () → ∀ e, b.perSleeper .rafa = .error e →
        ∃ r, getSleepData b = .success r ∧ r.rafa = ⟨"", "", "", "", "", "", ""⟩) := by
  constructor
  · cases h : getSleepData b with
    | success r => exact Or.inr ⟨r, rfl⟩
    | failure e => exact Or.inl ⟨e, rfl⟩
  · intro hl hlog hp hb e he
    have hd : (extractSleepDataForBothSleepersEnhanced b.perSleeper).rafa =
        { emptyMetrics with raw := some e } := by
      simp [extractSleepDataForBothSleepersEnhanced, he]
    refine ⟨⟨projectRecord (extractSleepDataForBothSleepersEnhanced b.perSleeper).rafa,
      projectRecord (extractSleepDataForBothSleepersEnhanced b.perSleeper).miki⟩, ?_, ?_⟩
    · simp [getSleepData, scrapeSleepMetrics, hl, hlog, hp, hb, finallyOverride]
    · rw [hd]
      rfl

/-- Witness for `getSleepData_shape`: a run whose rafa extraction throws
still yields a fully-shaped success result with an all-empty rafa record. -/
theorem getSleepData_shape_witness :
    ∃ r, getSleepData ⟨.ok (), .ok (), fun s => match s with
        | .rafa => .error "selector crashed"
        | .miki => .ok emptyMetrics, .ok (), .ok ()⟩ = .success r ∧
      r.rafa = ⟨"", "", "", "", "", "", ""⟩ :=
  (getSleepData_shape ⟨.ok (), .ok (), fun s => match s with
      | .rafa => .error "selector crashed"
      | .miki => .ok emptyMetrics, .ok (), .ok ()⟩).2 rfl rfl rfl rfl
    "selector crashed" rfl

/-- C9 counterexample: the `finally` block's close calls are not wrapped in
their own try/catch, so a page-close error replaces the primary outcome.
The same behaviour with the close succeeding shows the primary outcome was
a successful extraction that the close error masked. -/
theorem scrape_close_error_masks :
    (scrapeSleepMetrics ⟨.ok (), .ok (), fun _ => .ok emptyMetrics,
        .error "page close failed", .ok ()⟩).1 = .error "page close failed" ∧
    (scrapeSleepMetrics ⟨.ok (), .ok (), fun _ => .ok emptyMetrics,
        .ok (), .ok ()⟩).1 = .ok ⟨emptyMetrics, emptyMetrics⟩ := by
  exact ⟨rfl, rfl⟩

/-- C9 amended: the page and then the browser are closed in the `finally`
block whenever the browser was launched, on success and on failure alike;
when both closes succeed the primary result or error passes through
unchanged, but a close error is not caught — it replaces the primary
outcome, and a page-close error skips the browser close. -/
theorem scrapeSleepMetrics_cleanup (b : RunBehavior) (h : b.launch = .ok ()) :
    ((scrapeSleepMetrics b).2.head? = some CloseAction.closePage) ∧
    (b.pageClose = .ok () →
      (scrapeSleepMetrics b).2 = [CloseAction.closePage, CloseAction.closeBrowser]) ∧
    (∀ e, b.pageClose = .error e →
      (scrapeSleepMetrics b).2 = [CloseAction.closePage] ∧
        (scrapeSleepMetrics b).1 = .error e) ∧
    (b.pageClose = .ok () → b.browserClose = .ok () →
      (scrapeSleepMetrics b).1 = (match b.login with
        | .error e => .error ("Failed to scrape SleepIQ data: " ++ e)
        | .ok _ => .ok (extractSleepDataForBothSleepersEnhanced b.perSleeper))) := by
  refine ⟨?_, ?_, ?_, ?_⟩
  · cases hp : b.pageClose with
    | ok u => cases u; simp [scrapeSleepMetrics, h, hp]
    | error e => simp [scrapeSleepMetrics, h, hp]
  · intro hp
    simp [scrapeSleepMetrics, h, hp]
  · intro e hp
    constructor <;> simp [scrapeSleepMetrics, h, hp, finallyOverride]
  · intro hp hb
    simp [scrapeSleepMetrics, h, hp, hb, finallyOverride]

/-- Witness for `scrapeSleepMetrics_cleanup`: a fully successful run closes
page then browser and returns the extracted data. -/
theorem scrapeSleepMetrics_cleanup_witness :
    (scrapeSleepMetrics ⟨.ok (), .ok (), fun _ => .ok emptyMetrics, .ok (), .ok ()⟩).2 =
      [CloseAction.closePage, CloseAction.closeBrowser] :=
  (scrapeSleepMetrics_cleanup
    ⟨.ok (), .ok (), fun _ => .ok emptyMetrics, .ok (), .ok ()⟩ rfl).2.1 rfl

/-- C3: for any page whose body text is exactly
`30-day avg\n70\nSleepIQ® score\n80\nAll-time best\n88`, the metric
extraction returns 70/80/88: the label-anchored body-text patterns of
strategy 3 match and overwrite whatever the earlier DOM-structural passes
produced, so they are authoritative. -/
theorem dashboard_literal_extraction (root : DomNode)
    (h : root.textContent = "30-day avg\n70\nSleepIQ® score\n80\nAll-time best\n88") :
    (extractSleepData root).thirtyAverage = "70" ∧
    (extractSleepData root).score = "80" ∧
    (extractSleepData root).allTimeBest = "88" := by
  have hready : dashboardReady root.textContent = true := by rw [h]; decide
  have h30 : matchThirtyDay root.textContent = some "70" := by rw [h]; rfl
  have hsc : matchScore root.textContent = some "80" := by rw [h]; rfl
  have hbt : matchAllTimeBest root.textContent = some "88" := by rw [h]; rfl
  simp [extractSleepData, hready, dashboardEvaluate, h30, hsc, hbt]

/-- Witness for `dashboard_literal_extraction` on a one-element page. -/
theorem dashboard_literal_extraction_witness :
    (extractSleepData (.elem ⟨"body", "", true⟩
      [.text "30-day avg\n70\nSleepIQ® score\n80\nAll-time best\n88"])).score = "80" :=
  (dashboard_literal_extraction
    (.elem ⟨"body", "", true⟩
      [.text "30-day avg\n70\nSleepIQ® score\n80\nAll-time best\n88"]) rfl).2.1

/-- C2 counterexample: on a dashboard whose body text reads
`SleepIQ® score` followed by `150`, the label-anchored pattern captures
`150` and no range validation discards it, so the extractor returns a score
outside [0, 100]. -/
theorem score_range_not_validated :
    (extractSleepData (.elem ⟨"body", "", true⟩
      [.text "SleepIQ® score\n150"])).score = "150" ∧
    ¬(strVal "150" ≤ 100) := by
  exact ⟨rfl, by decide⟩

theorem digit_toNat_le {c : Char} (h : isDigitCh c = true) : c.toNat - 48 ≤ 9 := by
  simp only [isDigitCh, Bool.and_eq_true, decide_eq_true_eq] at h
  obtain ⟨h1, h2⟩ := h
  rw [Char.le_def] at h2
  have h9 : c.val ≤ UInt32.ofNat 57 := by
    rw [show UInt32.ofNat 57 = Char.val (Char.ofNat 57) from by decide]
    exact h2
  have := UInt32.toNat_le_of_le (by decide) h9
  simp only [Char.toNat]
  omega

theorem digit_foldl_lt (l : List Char) (acc : Nat)
    (hd : ∀ c ∈ l, isDigitCh c = true) :
    l.foldl (fun a c => a * 10 + (c.toNat - 48)) acc < (acc + 1) * 10 ^ l.length := by
  induction l generalizing acc with
  | nil =>
    simp only [List.foldl_nil, List.length_nil, pow_zero, mul_one]
    omega
  | cons c cs ih =>
    have hc : c.toNat - 48 ≤ 9 := digit_toNat_le (hd c (List.mem_cons_self c cs))
    have hrec := ih (acc * 10 + (c.toNat - 48)) (fun x hx => hd x (List.mem_cons_of_mem c hx))
    simp only [List.foldl_cons, List.length_cons]
    calc List.foldl (fun a c => a * 10 + (c.toNat - 48)) (acc * 10 + (c.toNat - 48)) cs
        < (acc * 10 + (c.toNat - 48) + 1) * 10 ^ cs.length := hrec
      _ ≤ ((acc + 1) * 10) * 10 ^ cs.length := by
          have : acc * 10 + (c.toNat - 48) + 1 ≤ (acc + 1) * 10 := by omega
          exact Nat.mul_le_mul_right _ this
      _ = (acc + 1) * 10 ^ (cs.length + 1) := by ring

theorem digitsVal_le_999 {l : List Char} (hd : l.all isDigitCh = true)
    (hl : l.length ≤ 3) : digitsVal l ≤ 999 := by
  have h := digit_foldl_lt l 0 (fun c hc => (List.all_eq_true.mp hd c hc))
  have hpow : 10 ^ l.length ≤ 10 ^ 3 := Nat.pow_le_pow_right (by norm_num) hl
  simp only [digitsVal]
  omega

theorem digitRunHere_shape {lo hi : Nat} {prev : Option Char} {l r : List Char}
    (h : digitRunHere lo hi prev l = some r) :
    (∀ c ∈ r, isDigitCh c = true) ∧ lo ≤ r.length ∧ r.length ≤ hi := by
  simp only [digitRunHere] at h
  split at h
  · rename_i hcond
    cases h
    simp only [Bool.and_eq_true, decide_eq_true_eq] at hcond
    obtain ⟨⟨⟨hb, hlo⟩, hhi⟩, hba⟩ := hcond
    exact ⟨fun c hc => List.mem_takeWhile_imp hc, hlo, hhi⟩
  · cases h


theorem scanDigitRun_shape {lo hi : Nat} {prev : Option Char} {l r : List Char}
    (h : scanDigitRun lo hi prev l = some r) :
    (∀ c ∈ r, isDigitCh c = true) ∧ lo ≤ r.length ∧ r.length ≤ hi := by
  induction l generalizing prev with
  | nil => cases h
  | cons c cs ih =>
    rw [scanDigitRun] at h
    cases hd : digitRunHere lo hi prev (c :: cs) with
    | some r0 =>
      rw [hd] at h
      cases h
      exact digitRunHere_shape hd
    | none =>
      rw [hd] at h
      exact ih h

theorem labelNumHere_shape {label l r : List Char}
    (h : labelNumHere label l = some r) :
    (∀ c ∈ r, isDigitCh c = true) ∧ 1 ≤ r.length ∧ r.length ≤ 3 := by
  simp only [labelNumHere] at h
  split at h
  · split at h
    · split at h
      · cases h
        rename_i hlen
        refine ⟨fun c hc => List.mem_takeWhile_imp (List.mem_of_mem_take hc), ?_, ?_⟩
        · exact hlen
        · simp [List.length_take]
      · cases h
    · cases h
  · cases h

theorem findLabelNum_shape {label l r : List Char}
    (h : findLabelNum label l = some r) :
    (∀ c ∈ r, isDigitCh c = true) ∧ 1 ≤ r.length ∧ r.length ≤ 3 := by
  induction l with
  | nil =>
    rw [findLabelNum] at h
    exact labelNumHere_shape h
  | cons c cs ih =>
    rw [findLabelNum] at h
    cases hh : labelNumHere label (c :: cs) with
    | some d =>
      rw [hh] at h
      cases h
      exact labelNumHere_shape hh
    | none =>
      rw [hh] at h
      exact ih h

theorem scoreNumHere_shape {l r : List Char}
    (h : scoreNumHere l = some r) :
    (∀ c ∈ r, isDigitCh c = true) ∧ 1 ≤ r.length ∧ r.length ≤ 3 := by
  simp only [scoreNumHere] at h
  split at h
  · split at h
    · split at h
      · split at h
        · cases h
          rename_i hlen
          refine ⟨fun c hc => List.mem_takeWhile_imp (List.mem_of_mem_take hc), hlen, ?_⟩
          simp [List.length_take]
        · cases h
      · cases h
    · cases h
  · cases h

theorem findScoreNum_shape {l r : List Char}
    (h : findScoreNum l = some r) :
    (∀ c ∈ r, isDigitCh c = true) ∧ 1 ≤ r.length ∧ r.length ≤ 3 := by
  induction l with
  | nil =>
    rw [findScoreNum] at h
    exact scoreNumHere_shape h
  | cons c cs ih =>
    rw [findScoreNum] at h
    cases hh : scoreNumHere (c :: cs) with
    | some d =>
      rw [hh] at h
      cases h
      exact scoreNumHere_shape hh
    | none =>
      rw [hh] at h
      exact ih h


theorem asString_toList (l : List Char) : (List.asString l).toList = l := rfl

theorem matchNum13_shape {s : String} {m : String} (h : matchNum13 s = some m) :
    m.toList.all isDigitCh = true ∧ 1 ≤ m.toList.length ∧ m.toList.length ≤ 3 := by
  simp only [matchNum13, Option.map_eq_some'] at h
  obtain ⟨r, hr, rfl⟩ := h
  obtain ⟨hd, h1, h3⟩ := scanDigitRun_shape hr
  rw [asString_toList]
  exact ⟨List.all_eq_true.mpr hd, h1, h3⟩

theorem matchNum2_shape {s : String} {m : String} (h : matchNum2 s = some m) :
    m.toList.all isDigitCh = true ∧ 1 ≤ m.toList.length ∧ m.toList.length ≤ 3 := by
  simp only [matchNum2, Option.map_eq_some'] at h
  obtain ⟨r, hr, rfl⟩ := h
  obtain ⟨hd, h1, h3⟩ := scanDigitRun_shape hr
  rw [asString_toList]
  exact ⟨List.all_eq_true.mpr hd, by omega, by omega⟩

theorem matchExact2_shape {s m : String} (h : matchExact2 s = some m) :
    m.toList.all isDigitCh = true ∧ 1 ≤ m.toList.length ∧ m.toList.length ≤ 3 := by
  simp only [matchExact2] at h
  split at h
  · cases h
    rename_i hcond
    simp only [Bool.and_eq_true, decide_eq_true_eq] at hcond
    rw [asString_toList]
    exact ⟨hcond.2, by omega, by omega⟩
  · cases h

theorem matchThirtyDay_shape {s m : String} (h : matchThirtyDay s = some m) :
    m.toList.all isDigitCh = true ∧ 1 ≤ m.toList.length ∧ m.toList.length ≤ 3 := by
  simp only [matchThirtyDay, Option.map_eq_some'] at h
  obtain ⟨r, hr, rfl⟩ := h
  obtain ⟨hd, h1, h3⟩ := findLabelNum_shape hr
  rw [asString_toList]
  exact ⟨List.all_eq_true.mpr hd, h1, h3⟩

theorem matchAllTimeBest_shape {s m : String} (h : matchAllTimeBest s = some m) :
    m.toList.all isDigitCh = true ∧ 1 ≤ m.toList.length ∧ m.toList.length ≤ 3 := by
  simp only [matchAllTimeBest, Option.map_eq_some'] at h
  obtain ⟨r, hr, rfl⟩ := h
  obtain ⟨hd, h1, h3⟩ := findLabelNum_shape hr
  rw [asString_toList]
  exact ⟨List.all_eq_true.mpr hd, h1, h3⟩

theorem matchScore_shape {s m : String} (h : matchScore s = some m) :
    m.toList.all isDigitCh = true ∧ 1 ≤ m.toList.length ∧ m.toList.length ≤ 3 := by
  simp only [matchScore, Option.map_eq_some'] at h
  obtain ⟨r, hr, rfl⟩ := h
  obtain ⟨hd, h1, h3⟩ := findScoreNum_shape hr
  rw [asString_toList]
  exact ⟨List.all_eq_true.mpr hd, h1, h3⟩



theorem strategyOneLoop_shape (els : List DomNode) :
    strategyOneLoop els = "" ∨
      ((strategyOneLoop els).toList.all isDigitCh = true ∧
       1 ≤ (strategyOneLoop els).toList.length ∧
       (strategyOneLoop els).toList.length ≤ 3) := by
  induction els with
  | nil => exact Or.inl rfl
  | cons el rest ih =>
    rw [strategyOneLoop]
    split
    · cases hm : matchNum2 el.textContent with
      | some m =>
        simp only [hm]
        exact Or.inr (matchNum2_shape hm)
      | none =>
        simp only [hm]
        exact ih
    · exact ih

theorem thirtyAt_shape {el : DomNode} {parent : Option DomNode} {m : String}
    (h : thirtyAt el parent = some m) :
    m.toList.all isDigitCh = true ∧ 1 ≤ m.toList.length ∧ m.toList.length ≤ 3 := by
  simp only [thirtyAt] at h
  split at h
  · cases hm : matchNum13 el.textContent with
    | some m0 =>
      simp only [hm] at h
      cases h
      exact matchNum13_shape hm
    | none =>
      simp only [hm] at h
      cases parent with
      | some p => exact matchNum13_shape h
      | none => cases h
  · cases h

theorem allTimeAt_shape {el : DomNode} {parent : Option DomNode} {m : String}
    (h : allTimeAt el parent = some m) :
    m.toList.all isDigitCh = true ∧ 1 ≤ m.toList.length ∧ m.toList.length ≤ 3 := by
  simp only [allTimeAt] at h
  split at h
  · cases hm : matchNum13 el.textContent with
    | some m0 =>
      simp only [hm] at h
      cases h
      exact matchNum13_shape hm
    | none =>
      simp only [hm] at h
      cases parent with
      | some p => exact matchNum13_shape h
      | none => cases h
  · cases h

theorem scoreSibling_shape {sibs : List DomNode} {m : String}
    (h : scoreSibling sibs = some m) :
    m.toList.all isDigitCh = true ∧ 1 ≤ m.toList.length ∧ m.toList.length ≤ 3 := by
  induction sibs with
  | nil => cases h
  | cons sib rest ih =>
    rw [scoreSibling] at h
    cases hm : matchExact2 sib.textContent with
    | some m0 =>
      simp only [hm] at h
      split at h
      · cases h
        exact matchExact2_shape hm
      · exact ih h
    | none =>
      simp only [hm] at h
      exact ih h

theorem scoreAt_shape {el : DomNode} {parent : Option DomNode} {m : String}
    (h : scoreAt el parent = some m) :
    m.toList.all isDigitCh = true ∧ 1 ≤ m.toList.length ∧ m.toList.length ≤ 3 := by
  simp only [scoreAt] at h
  split at h
  · cases hm : matchNum2 el.textContent with
    | some m0 =>
      simp only [hm] at h
      split at h
      · cases h
        exact matchNum2_shape hm
      · cases parent with
        | some p => exact scoreSibling_shape h
        | none => cases h
    | none =>
      simp only [hm] at h
      cases parent with
      | some p => exact scoreSibling_shape h
      | none => cases h
  · cases h

theorem findThirtyStruct_shape (ps : List (DomNode × Option DomNode)) :
    findThirtyStruct ps = "" ∨
      ((findThirtyStruct ps).toList.all isDigitCh = true ∧
       1 ≤ (findThirtyStruct ps).toList.length ∧
       (findThirtyStruct ps).toList.length ≤ 3) := by
  induction ps with
  | nil => exact Or.inl rfl
  | cons p rest ih =>
    obtain ⟨el, parent⟩ := p
    rw [findThirtyStruct]
    cases hm : thirtyAt el parent with
    | some m =>
      simp only [hm]
      exact Or.inr (thirtyAt_shape hm)
    | none =>
      simp only [hm]
      exact ih

theorem findAllTimeStruct_shape (ps : List (DomNode × Option DomNode)) :
    findAllTimeStruct ps = "" ∨
      ((findAllTimeStruct ps).toList.all isDigitCh = true ∧
       1 ≤ (findAllTimeStruct ps).toList.length ∧
       (findAllTimeStruct ps).toList.length ≤ 3) := by
  induction ps with
  | nil => exact Or.inl rfl
  | cons p rest ih =>
    obtain ⟨el, parent⟩ := p
    rw [findAllTimeStruct]
    cases hm : allTimeAt el parent with
    | some m =>
      simp only [hm]
      exact Or.inr (allTimeAt_shape hm)
    | none =>
      simp only [hm]
      exact ih

theorem findScoreStruct_shape (ps : List (DomNode × Option DomNode)) :
    findScoreStruct ps = "" ∨
      ((findScoreStruct ps).toList.all isDigitCh = true ∧
       1 ≤ (findScoreStruct ps).toList.length ∧
       (findScoreStruct ps).toList.length ≤ 3) := by
  induction ps with
  | nil => exact Or.inl rfl
  | cons p rest ih =>
    obtain ⟨el, parent⟩ := p
    rw [findScoreStruct]
    cases hm : scoreAt el parent with
    | some m =>
      simp only [hm]
      exact Or.inr (scoreAt_shape hm)
    | none =>
      simp only [hm]
      exact ih


theorem dashboardEvaluate_shape (root : DomNode) :
    ∀ s ∈ [(dashboardEvaluate root).thirtyDayAvg, (dashboardEvaluate root).sleepScore,
        (dashboardEvaluate root).allTimeBest],
      s = "" ∨ (s.toList.all isDigitCh = true ∧ 1 ≤ s.toList.length ∧
        s.toList.length ≤ 3) := by
  have h30 : (dashboardEvaluate root).thirtyDayAvg = "" ∨
      ((dashboardEvaluate root).thirtyDayAvg.toList.all isDigitCh = true ∧
       1 ≤ (dashboardEvaluate root).thirtyDayAvg.toList.length ∧
       (dashboardEvaluate root).thirtyDayAvg.toList.length ≤ 3) := by
    simp only [dashboardEvaluate]
    cases hm : matchThirtyDay root.textContent with
    | some m =>
      simp only [hm, Option.getD_some]
      exact Or.inr (matchThirtyDay_shape hm)
    | none =>
      simp only [hm, Option.getD_none]
      exact findThirtyStruct_shape _
  have hsc : (dashboardEvaluate root).sleepScore = "" ∨
      ((dashboardEvaluate root).sleepScore.toList.all isDigitCh = true ∧
       1 ≤ (dashboardEvaluate root).sleepScore.toList.length ∧
       (dashboardEvaluate root).sleepScore.toList.length ≤ 3) := by
    simp only [dashboardEvaluate]
    cases hm : matchScore root.textContent with
    | some m =>
      simp only [hm, Option.getD_some]
      exact Or.inr (matchScore_shape hm)
    | none =>
      simp only [hm, Option.getD_none]
      split
      · exact findScoreStruct_shape _
      · exact strategyOneLoop_shape _
  have hbt : (dashboardEvaluate root).allTimeBest = "" ∨
      ((dashboardEvaluate root).allTimeBest.toList.all isDigitCh = true ∧
       1 ≤ (dashboardEvaluate root).allTimeBest.toList.length ∧
       (dashboardEvaluate root).allTimeBest.toList.length ≤ 3) := by
    simp only [dashboardEvaluate]
    cases hm : matchAllTimeBest root.textContent with
    | some m =>
      simp only [hm, Option.getD_some]
      exact Or.inr (matchAllTimeBest_shape hm)
    | none =>
      simp only [hm, Option.getD_none]
      exact findAllTimeStruct_shape _
  intro s hs
  simp only [List.mem_cons, List.not_mem_nil, or_false] at hs
  rcases hs with rfl | rfl | rfl
  · exact h30
  · exact hsc
  · exact hbt

/-- C2 amended: every non-empty extracted metric is a string of one to
three decimal digits, so its numeric value is an integer in [0, 999]; the
[0, 100] bound is enforced only inside the DOM-structural score fallback,
not by the label-anchored patterns. -/
theorem metric_digits_bounded (root : DomNode) :
    ∀ s ∈ [(extractSleepData root).thirtyAverage, (extractSleepData root).score,
        (extractSleepData root).allTimeBest],
      s ≠ "" → s.toList.all isDigitCh = true ∧ 1 ≤ s.toList.length ∧
        s.toList.length ≤ 3 ∧ strVal s ≤ 999 := by
  intro s hs hne
  have hshape : s = "" ∨ (s.toList.all isDigitCh = true ∧ 1 ≤ s.toList.length ∧
      s.toList.length ≤ 3) := by
    by_cases hr : dashboardReady root.textContent = true
    · have hfields : (extractSleepData root).thirtyAverage =
          (dashboardEvaluate root).thirtyDayAvg ∧
        (extractSleepData root).score = (dashboardEvaluate root).sleepScore ∧
        (extractSleepData root).allTimeBest = (dashboardEvaluate root).allTimeBest := by
        simp [extractSleepData, hr]
      simp only [List.mem_cons, List.not_mem_nil, or_false] at hs
      rcases hs with rfl | rfl | rfl
      · rw [hfields.1]
        exact dashboardEvaluate_shape root _ (by simp)
      · rw [hfields.2.1]
        exact dashboardEvaluate_shape root _ (by simp)
      · rw [hfields.2.2]
        exact dashboardEvaluate_shape root _ (by simp)
    · have hempty : extractSleepData root = emptyMetrics := by
        simp [extractSleepData, hr]
      simp only [List.mem_cons, List.not_mem_nil, or_false] at hs
      rcases hs with rfl | rfl | rfl <;> rw [hempty] <;> exact Or.inl rfl
  rcases hshape with rfl | ⟨hd, h1, h3⟩
  · exact absurd rfl hne
  · refine ⟨hd, h1, h3, ?_⟩
    exact digitsVal_le_999 hd h3

/-- Witness for `metric_digits_bounded` on the out-of-range page: the
returned score `150` is a three-digit integer within [0, 999]. -/
theorem metric_digits_bounded_witness :
    strVal (extractSleepData (.elem ⟨"body", "", true⟩
      [.text "SleepIQ® score\n150"])).score ≤ 999 :=
  (metric_digits_bounded (.elem ⟨"body", "", true⟩ [.text "SleepIQ® score\n150"])
    _ (by simp) (by decide)).2.2.2


theorem toList_asString (s : String) : s.toList.asString = s := rfl

theorem toList_append (a b : String) : (a ++ b).toList = a.toList ++ b.toList :=
  String.data_append a b

theorem dropWhile_eq_self_of_head {p : Char → Bool} {l : List Char}
    (h : ∀ c, l.head? = some c → p c = false) : l.dropWhile p = l := by
  cases l with
  | nil => rfl
  | cons c cs =>
    rw [List.dropWhile_cons, h c rfl]
    simp

theorem trimChars_eq_self {l : List Char}
    (h1 : ∀ c, l.head? = some c → isJsSpace c = false)
    (h2 : ∀ c, l.getLast? = some c → isJsSpace c = false) : trimChars l = l := by
  unfold trimChars
  rw [dropWhile_eq_self_of_head h1]
  rw [dropWhile_eq_self_of_head (by simpa using h2)]
  exact List.reverse_reverse l

theorem occursIn_of_isPrefixOf {sub l : List Char} (h : sub.isPrefixOf l = true) :
    occursIn sub l = true := by
  cases l with
  | nil =>
    cases sub with
    | nil => rfl
    | cons c cs => simp [List.isPrefixOf] at h
  | cons c cs =>
    rw [occursIn, h]
    rfl

theorem jsIncludes_left (a b : String) : jsIncludes (a ++ b) a = true := by
  unfold jsIncludes
  apply occursIn_of_isPrefixOf
  rw [toList_append]
  exact List.isPrefixOf_iff_prefix.mpr (List.prefix_append _ _)

theorem mem_of_getLastQ {l : List Char} {c : Char} (h : l.getLast? = some c) : c ∈ l := by
  cases l with
  | nil => cases h
  | cons a as => exact List.mem_of_mem_getLast? h

theorem isAllDigits_false_of_punct {s : String}
    (h : (endsWithCh s '.' || endsWithCh s '!') = true) : isAllDigits s = false := by
  have hlast : s.toList.getLast? = some '.' ∨ s.toList.getLast? = some '!' := by
    rw [Bool.or_eq_true] at h
    rcases h with h1 | h1 <;>
      [left; right] <;>
      · unfold endsWithCh at h1
        split at h1
        · rename_i d hd
          simp only [decide_eq_true_eq] at h1
          rw [hd, h1]
        · cases h1
  cases hall : s.toList.all isDigitCh with
  | false => simp only [isAllDigits, hall, Bool.and_false]
  | true =>
    exfalso
    rcases hlast with h1 | h1 <;>
      · have := List.all_eq_true.mp hall _ (mem_of_getLastQ h1)
        simp [isDigitCh] at this

theorem tabMsgLoop_cons_skip_vocab {el : DomNode} {rest : List DomNode}
    (hvocab : containsTabVocab (jsTrim el.textContent) = true) :
    tabMsgLoop (el :: rest) = tabMsgLoop rest := by
  rw [tabMsgLoop]
  cases hv : el.visible with
  | false => simp
  | true =>
    simp only [Bool.not_true, Bool.false_eq_true, if_false]
    split <;> simp_all

theorem tabMsgLoop_cons_skip_cond {el : DomNode} {rest : List DomNode}
    (hc : ((30 < (jsTrim el.textContent).length &&
        (jsTrim el.textContent).length < 500) &&
        (endsWithCh (jsTrim el.textContent) '.' ||
          endsWithCh (jsTrim el.textContent) '!')) = false) :
    tabMsgLoop (el :: rest) = tabMsgLoop rest := by
  rw [tabMsgLoop]
  cases hv : el.visible with
  | false => simp
  | true =>
    simp only [Bool.not_true, Bool.false_eq_true, if_false]
    split <;> simp_all

theorem tabMsgLoop_cons_hit {el : DomNode} {rest : List DomNode}
    (hvis : el.visible = true)
    (hc : ((30 < (jsTrim el.textContent).length &&
        (jsTrim el.textContent).length < 500) &&
        (endsWithCh (jsTrim el.textContent) '.' ||
          endsWithCh (jsTrim el.textContent) '!')) = true)
    (hvocab : containsTabVocab (jsTrim el.textContent) = false)
    (hdig : isAllDigits (jsTrim (jsTrim el.textContent)) = false) :
    tabMsgLoop (el :: rest) = jsTrim el.textContent := by
  rw [tabMsgLoop]
  rw [hvis]
  simp only [Bool.not_true, Bool.false_eq_true, if_false]
  split <;> simp_all


theorem getLast_punct_of_ends {s : String}
    (h : (endsWithCh s '.' || endsWithCh s '!') = true) :
    s.toList.getLast? = some '.' ∨ s.toList.getLast? = some '!' := by
  rw [Bool.or_eq_true] at h
  rcases h with h1 | h1 <;>
    [left; right] <;>
    · unfold endsWithCh at h1
      split at h1
      · rename_i d hd
        simp only [decide_eq_true_eq] at h1
        rw [hd, h1]
      · cases h1

theorem tabScenario_aux (hl msg : String)
    (hlheadQ : ∀ c, hl.toList.head? = some c → isJsSpace c = false)
    (hlne : hl.toList ≠ [])
    (hvocabBody : containsTabVocab (hl ++ msg) = true)
    (hskipHeader : ((30 <
        (jsTrim (DomNode.elem ⟨"div", "tabs", true⟩ [.text hl]).textContent).length &&
        (jsTrim (DomNode.elem ⟨"div", "tabs", true⟩ [.text hl]).textContent).length < 500) &&
        (endsWithCh (jsTrim (DomNode.elem ⟨"div", "tabs", true⟩ [.text hl]).textContent) '.' ||
         endsWithCh (jsTrim (DomNode.elem ⟨"div", "tabs", true⟩ [.text hl]).textContent) '!')) =
        false)
    (h30 : 30 < msg.length) (h500 : msg.length < 500)
    (hend : (endsWithCh msg '.' || endsWithCh msg '!') = true)
    (htrim : jsTrim msg = msg)
    (hvocab : containsTabVocab msg = false) :
    extractActiveTabMessage (.elem ⟨"body", "", true⟩ [
      .elem ⟨"div", "tabs", true⟩ [.text hl],
      .elem ⟨"div", "content", true⟩ [.text msg]]) = msg := by
  have hmsgne : msg.toList ≠ [] := by
    rcases getLast_punct_of_ends hend with h1 | h1 <;>
      · intro hnil
        rw [hnil] at h1
        cases h1
  have hlastm : ∀ c, msg.toList.getLast? = some c → isJsSpace c = false := by
    intro c hc
    rcases getLast_punct_of_ends hend with h1 | h1 <;>
      · rw [h1] at hc
        cases hc
        decide
  have hbt : (DomNode.elem ⟨"body", "", true⟩ [
      .elem ⟨"div", "tabs", true⟩ [.text hl],
      .elem ⟨"div", "content", true⟩ [.text msg]]).textContent = hl ++ msg := by
    show (hl ++ "") ++ ((msg ++ "") ++ "") = hl ++ msg
    simp
  have htrbody : jsTrim (hl ++ msg) = hl ++ msg := by
    unfold jsTrim
    rw [trimChars_eq_self]
    · exact toList_asString _
    · intro c hc
      rw [toList_append, List.head?_append] at hc
      cases hh : hl.toList.head? with
      | some d =>
        rw [hh] at hc
        cases hc
        exact hlheadQ _ hh
      | none => exact absurd (List.head?_eq_none_iff.mp hh) hlne
    · intro c hc
      rw [toList_append, List.getLast?_append_of_ne_nil _ hmsgne] at hc
      exact hlastm c hc
  have hct : (DomNode.elem ⟨"div", "content", true⟩ [.text msg]).textContent = msg := by
    show msg ++ "" = msg
    simp
  show tabMsgLoop _ = msg
  rw [show DomNode.allElems (.elem ⟨"body", "", true⟩ [
      .elem ⟨"div", "tabs", true⟩ [.text hl],
      .elem ⟨"div", "content", true⟩ [.text msg]]) =
    [.elem ⟨"body", "", true⟩ [
      .elem ⟨"div", "tabs", true⟩ [.text hl],
      .elem ⟨"div", "content", true⟩ [.text msg]],
     .elem ⟨"div", "tabs", true⟩ [.text hl],
     .elem ⟨"div", "content", true⟩ [.text msg]] from rfl]
  rw [tabMsgLoop_cons_skip_vocab (by
    rw [hbt, htrbody]
    exact hvocabBody)]
  rw [tabMsgLoop_cons_skip_cond hskipHeader]
  rw [tabMsgLoop_cons_hit ?hvis ?hc ?hv ?hd]
  case hvis => rfl
  case hc =>
    rw [hct, htrim]
    simp only [Bool.and_eq_true, decide_eq_true_eq]
    exact ⟨⟨h30, h500⟩, hend⟩
  case hv =>
    rw [hct, htrim]
    exact hvocab
  case hd =>
    rw [hct, htrim, htrim]
    exact isAllDigits_false_of_punct hend
  rw [hct, htrim]

/-- C5 amended: the scan is document-wide, not content-scoped, but when the
sibling tab header carries one of the labels in the exclusion vocabulary
(`Heart Rate Variability` or `Breath Rate`), every ancestor whose text
concatenates the header label with the message is rejected by the
vocabulary filter, the short header itself fails the length filter, and
the extractor returns exactly the content-container message. -/
theorem tabMessage_content_scoped (hl msg : String)
    (hhl : hl = "Heart Rate Variability" ∨ hl = "Breath Rate")
    (h30 : 30 < msg.length) (h500 : msg.length < 500)
    (hend : (endsWithCh msg '.' || endsWithCh msg '!') = true)
    (htrim : jsTrim msg = msg)
    (hvocab : containsTabVocab msg = false) :
    extractActiveTabMessage (.elem ⟨"body", "", true⟩ [
      .elem ⟨"div", "tabs", true⟩ [.text hl],
      .elem ⟨"div", "content", true⟩ [.text msg]]) = msg := by
  rcases hhl with rfl | rfl
  · refine tabScenario_aux _ _ ?_ (by decide) ?_ (by decide) h30 h500 hend htrim hvocab
    · intro c hc
      rw [show ("Heart Rate Variability" : String).toList.head? = some 'H' from rfl] at hc
      cases hc
      decide
    · simp [containsTabVocab, jsIncludes_left]
  · refine tabScenario_aux _ _ ?_ (by decide) ?_ (by decide) h30 h500 hend htrim hvocab
    · intro c hc
      rw [show ("Breath Rate" : String).toList.head? = some 'B' from rfl] at hc
      cases hc
      decide
    · simp [containsTabVocab, jsIncludes_left]

/-- Witness for `tabMessage_content_scoped` with the Breath Rate header
label and a realistic coaching message. -/
theorem tabMessage_content_scoped_witness :
    extractActiveTabMessage (.elem ⟨"body", "", true⟩ [
      .elem ⟨"div", "tabs", true⟩ [.text "Breath Rate"],
      .elem ⟨"div", "content", true⟩
        [.text "A lower heart rate generally means your heart is working well."]]) =
      "A lower heart rate generally means your heart is working well." :=
  tabMessage_content_scoped "Breath Rate"
    "A lower heart rate generally means your heart is working well."
    (Or.inr rfl) (by decide) (by decide) (by decide) (by decide) (by decide)

/-- C5 counterexample: when the sibling header carries the `Heart Rate`
label — another tab's label that is *not* in the exclusion vocabulary — the
document-wide scan hits the common ancestor first and returns the header
label concatenated with the message, not the content-container text. -/
theorem tabMessage_concatenates_header :
    extractActiveTabMessage (.elem ⟨"body", "", true⟩ [
      .elem ⟨"div", "tabs", true⟩ [.text "Heart Rate"],
      .elem ⟨"div", "content", true⟩
        [.text "Your heart is working more efficiently tonight."]]) =
      "Heart Rate" ++ "Your heart is working more efficiently tonight." ∧
    "Heart Rate" ++ "Your heart is working more efficiently tonight." ≠
      "Your heart is working more efficiently tonight." := by
  constructor
  · rfl
  · decide


theorem hasDoubleWs_cons (a : Char) (l : List Char) :
    hasDoubleWs (a :: l) =
      ((match l.head? with
        | some b => isJsSpace a && isJsSpace b
        | none => false) || hasDoubleWs l) := rfl

theorem collapseAux_head {l : List Char} :
    ∀ c, (collapseAux true l).head? = some c → isJsSpace c = false := by
  induction l with
  | nil => intro c hc; cases hc
  | cons a as ih =>
    intro c hc
    rw [collapseAux] at hc
    cases hsp : isJsSpace a with
    | true =>
      rw [hsp] at hc
      simp only [if_true] at hc
      exact ih c hc
    | false =>
      rw [hsp] at hc
      simp only [Bool.false_eq_true, if_false] at hc
      cases hc
      exact hsp

theorem hasDoubleWs_collapseAux (l : List Char) :
    ∀ flag, hasDoubleWs (collapseAux flag l) = false := by
  induction l with
  | nil => intro flag; rfl
  | cons a as ih =>
    intro flag
    rw [collapseAux]
    cases hsp : isJsSpace a with
    | true =>
      cases flag with
      | true =>
        simp only [hsp, if_true]
        exact ih true
      | false =>
        simp only [hsp, if_true, Bool.false_eq_true, if_false]
        rw [hasDoubleWs_cons, Bool.or_eq_false_iff]
        refine ⟨?_, ih true⟩
        cases hh : (collapseAux true as).head? with
        | none => rfl
        | some b =>
          show (isJsSpace ' ' && isJsSpace b) = false
          rw [collapseAux_head b hh]
          simp
    | false =>
      simp only [hsp, Bool.false_eq_true, if_false]
      rw [hasDoubleWs_cons, Bool.or_eq_false_iff]
      refine ⟨?_, ih false⟩
      cases hh : (collapseAux false as).head? with
      | none => rfl
      | some b =>
        show (isJsSpace a && isJsSpace b) = false
        rw [hsp]
        simp

theorem mem_collapseAux {c : Char} {l : List Char} {flag : Bool}
    (h : c ∈ collapseAux flag l) : c = ' ' ∨ (c ∈ l ∧ isJsSpace c = false) := by
  induction l generalizing flag with
  | nil => cases h
  | cons a as ih =>
    rw [collapseAux] at h
    cases hsp : isJsSpace a with
    | true =>
      rw [hsp] at h
      simp only [if_true] at h
      cases flag with
      | true =>
        rcases ih h with h1 | ⟨h1, h2⟩
        · exact Or.inl h1
        · exact Or.inr ⟨List.mem_cons_of_mem a h1, h2⟩
      | false =>
        rcases List.mem_cons.mp h with rfl | h1
        · exact Or.inl rfl
        · rcases ih h1 with h2 | ⟨h2, h3⟩
          · exact Or.inl h2
          · exact Or.inr ⟨List.mem_cons_of_mem a h2, h3⟩
    | false =>
      rw [hsp] at h
      simp only [Bool.false_eq_true, if_false] at h
      rcases List.mem_cons.mp h with rfl | h1
      · exact Or.inr ⟨List.mem_cons_self _ _, hsp⟩
      · rcases ih h1 with h2 | ⟨h2, h3⟩
        · exact Or.inl h2
        · exact Or.inr ⟨List.mem_cons_of_mem a h2, h3⟩

theorem stripInvisible_eq_self {l : List Char}
    (h : ∀ c ∈ l, isInvisibleCls c = false) : stripInvisible l = l := by
  unfold stripInvisible
  rw [List.map_congr_left (g := id) (fun a ha => by rw [h a ha]; rfl)]
  exact List.map_id l

theorem hasDoubleWs_tail {a : Char} {l : List Char}
    (h : hasDoubleWs (a :: l) = false) : hasDoubleWs l = false := by
  rw [hasDoubleWs_cons, Bool.or_eq_false_iff] at h
  exact h.2

theorem hasDoubleWs_dropWhile {p : Char → Bool} {l : List Char}
    (h : hasDoubleWs l = false) : hasDoubleWs (l.dropWhile p) = false := by
  induction l with
  | nil => exact h
  | cons a as ih =>
    rw [List.dropWhile_cons]
    split
    · exact ih (hasDoubleWs_tail h)
    · exact h

theorem hasDoubleWs_iff_pair {l : List Char} :
    hasDoubleWs l = true ↔
      ∃ a b, isJsSpace a = true ∧ isJsSpace b = true ∧ [a, b] <:+: l := by
  induction l with
  | nil =>
    constructor
    · intro h; cases h
    · rintro ⟨a, b, -, -, pre, suf, h⟩
      simp [List.append_eq_nil] at h
  | cons x rest ih =>
    rw [hasDoubleWs_cons, Bool.or_eq_true]
    constructor
    · rintro (h | h)
      · cases hh : rest.head? with
        | none => rw [hh] at h; cases h
        | some b =>
          rw [hh] at h
          rw [Bool.and_eq_true] at h
          obtain ⟨rest2, rfl⟩ : ∃ rest2, rest = b :: rest2 := by
            cases rest with
            | nil => cases hh
            | cons y ys => cases hh; exact ⟨ys, rfl⟩
          exact ⟨x, b, h.1, h.2, (List.prefix_append [x, b] rest2).isInfix⟩
      · obtain ⟨a, b, ha, hb, s, t, hst⟩ := ih.mp h
        exact ⟨a, b, ha, hb, x :: s, t, by rw [← hst]; rfl⟩
    · rintro ⟨a, b, ha, hb, hi⟩
      rcases List.infix_cons_iff.mp hi with hp | hi2
      · obtain ⟨t, ht⟩ := hp
        cases ht
        left
        simp [ha, hb]
      · exact Or.inr (ih.mpr ⟨a, b, ha, hb, hi2⟩)

theorem hasDoubleWs_reverse (l : List Char) :
    hasDoubleWs l.reverse = hasDoubleWs l := by
  cases h : hasDoubleWs l with
  | true =>
    obtain ⟨a, b, ha, hb, hi⟩ := hasDoubleWs_iff_pair.mp h
    apply hasDoubleWs_iff_pair.mpr
    refine ⟨b, a, hb, ha, ?_⟩
    exact List.reverse_infix.mpr (by simpa using hi)
  | false =>
    cases hr : hasDoubleWs l.reverse with
    | false => rfl
    | true =>
      exfalso
      obtain ⟨a, b, ha, hb, hi⟩ := hasDoubleWs_iff_pair.mp hr
      have h2 : ([b, a] : List Char) <:+: l := by
        have h3 : ([b, a] : List Char).reverse <:+: l.reverse := by simpa using hi
        exact List.reverse_infix.mp h3
      have := hasDoubleWs_iff_pair.mpr ⟨b, a, hb, ha, h2⟩
      rw [h] at this
      cases this

theorem hasDoubleWs_trimChars {l : List Char} (h : hasDoubleWs l = false) :
    hasDoubleWs (trimChars l) = false := by
  unfold trimChars
  rw [hasDoubleWs_reverse]
  apply hasDoubleWs_dropWhile
  rw [hasDoubleWs_reverse]
  exact hasDoubleWs_dropWhile h

theorem mem_of_mem_dropWhileQ {p : Char → Bool} {c : Char} {l : List Char}
    (h : c ∈ l.dropWhile p) : c ∈ l := by
  induction l with
  | nil => exact h
  | cons a as ih =>
    rw [List.dropWhile_cons] at h
    split at h
    · exact List.mem_cons_of_mem a (ih h)
    · exact h

theorem mem_of_mem_trimChars {c : Char} {l : List Char} (h : c ∈ trimChars l) :
    c ∈ l := by
  unfold trimChars at h
  rw [List.mem_reverse] at h
  have h1 := mem_of_mem_dropWhileQ h
  rw [List.mem_reverse] at h1
  exact mem_of_mem_dropWhileQ h1


/-- C6 amended: the three biosignal messages are normalized by collapsing
whitespace runs, mapping the invisible class to spaces and trimming; for
any raw text containing no invisible-class character outside `\s` (that
is, no zero-width space U+200B), the cleaned message has no run of two
adjacent whitespace characters and no invisible/non-breaking space code
points.  (The general sleep-session message is only trimmed — see the
counterexample — and a zero-width space adjacent to spaces defeats the
collapse pass because the passes run in the wrong order.) -/
theorem cleanMessage_normalized (s : String)
    (h : ∀ c ∈ s.toList, isInvisibleCls c = true → isJsSpace c = true) :
    hasDoubleWs (cleanMessage s).toList = false ∧
    ∀ c ∈ (cleanMessage s).toList, isInvisibleCls c = false := by
  have hmem : ∀ c ∈ collapseWs s.toList, isInvisibleCls c = false := by
    intro c hc
    rcases mem_collapseAux hc with rfl | ⟨hc2, hsp⟩
    · decide
    · cases hinv : isInvisibleCls c with
      | false => rfl
      | true =>
        exfalso
        have := h c hc2 hinv
        rw [hsp] at this
        cases this
  have hstrip : stripInvisible (collapseWs s.toList) = collapseWs s.toList :=
    stripInvisible_eq_self hmem
  have htl : (cleanMessage s).toList = trimChars (collapseWs s.toList) := by
    unfold cleanMessage
    rw [hstrip, asString_toList]
  constructor
  · rw [htl]
    exact hasDoubleWs_trimChars (hasDoubleWs_collapseAux _ _)
  · intro c hc
    rw [htl] at hc
    exact hmem c (mem_of_mem_trimChars hc)

/-- Witness for `cleanMessage_normalized` on a raw message with a
whitespace run and an embedded NBSP. -/
theorem cleanMessage_normalized_witness :
    hasDoubleWs (cleanMessage "Your  heart rate was \u00A0 low.").toList = false :=
  (cleanMessage_normalized "Your  heart rate was \u00A0 low." (by decide)).1

/-- C6 counterexample: a biosignal message whose raw text has a zero-width
space between two plain spaces comes out of the cleanup with a run of
adjacent spaces (the collapse pass runs before the invisible-class pass,
and U+200B is not `\s`); and the sleep-session message is returned merely
trimmed, preserving an interior double space verbatim. -/
theorem message_normalization_falsified :
    hasDoubleWs ((extractBiosignalsMessagesImproved
      ⟨⟨"https://x/#/pages/sleep/details/biosignals",
        .elem ⟨"body", "", true⟩
          [.text "Great news \u200B your heart rate was low tonight."]⟩,
        fun _ => .error "offline",
        fun _ => .elem ⟨"body", "", true⟩ [.text ""]⟩).heartRateMsg).toList = true ∧
    hasDoubleWs ((extractSleepSessionMessageImproved
      ⟨⟨"https://x/#/pages/sleep", .elem ⟨"body", "", true⟩ [.text ""]⟩,
        fun u => .ok ⟨u, .elem ⟨"body", "", true⟩
          [.text "You were  more restless than usual tonight."]⟩,
        .ok ()⟩)).toList = true := by
  constructor
  · rfl
  · rfl


/-- C8: on the biosignals detail page, when no visible element carries the
exact `Heart Rate Variability` tab text (the tab cannot be located or
clicked), the extractor falls back to whole-page pattern matching — its
HRV field is exactly the cleaned fallback result — and when the fallback
matches nothing the field is the empty string.  The extraction is a total
function of the driver (the source wraps the whole flow in try/catch), so
no driver behaviour can abort the run. -/
theorem biosignals_hrv_tab_fallback (d : BioDriver)
    (h1 : jsIncludes d.start.url "#/pages/sleep/details/biosignals" = true)
    (h2 : jsIncludes d.start.url "biosignals" = true)
    (h3 : findTabElem d.start.dom "Heart Rate Variability" = false) :
    (extractBiosignalsMessagesImproved d).heartRateVariabilityMsg =
      cleanupField (hrvFallback d.start.dom.textContent) ∧
    (hrvFallback d.start.dom.textContent = "" →
      (extractBiosignalsMessagesImproved d).heartRateVariabilityMsg = "") := by
  have hmain : (extractBiosignalsMessagesImproved d).heartRateVariabilityMsg =
      cleanupField (hrvFallback d.start.dom.textContent) := by
    unfold extractBiosignalsMessagesImproved
    rw [h1]
    simp only [if_true, h2, Bool.not_true, Bool.false_eq_true, if_false, h3]
  refine ⟨hmain, fun h0 => ?_⟩
  rw [hmain, h0]
  rfl

/-- Witness for `biosignals_hrv_tab_fallback`: a biosignals page without an
HRV tab element and without any fallback pattern match yields an empty HRV
message. -/
theorem biosignals_hrv_tab_fallback_witness :
    (extractBiosignalsMessagesImproved
      ⟨⟨"https://x/#/pages/sleep/details/biosignals",
        .elem ⟨"body", "", true⟩ [.text "No biosignal coaching today"]⟩,
        fun _ => .error "offline",
        fun _ => .elem ⟨"body", "", true⟩ [.text ""]⟩).heartRateVariabilityMsg = "" :=
  (biosignals_hrv_tab_fallback
    ⟨⟨"https://x/#/pages/sleep/details/biosignals",
      .elem ⟨"body", "", true⟩ [.text "No biosignal coaching today"]⟩,
      fun _ => .error "offline",
      fun _ => .elem ⟨"body", "", true⟩ [.text ""]⟩
    (by decide) (by decide) (by decide)).2 (by rfl)

end SleepIQ
